import Mathlib

/-!
Verification of the release synchronization script (src/sync.py).

The script fetches releases of a GitHub repository through the gh CLI,
selects a stable and a prerelease candidate, matches one asset per release
against a glob pattern, downloads assets into a files directory, maintains
an app-latest symlink, extracts checksums from release bodies, and writes
a JSON summary.

Embedding notes.
The gh CLI, the network and the clock are modelled as oracles in an Env
structure: a fetched release list, a details function per tag, and a
download success function per tag and asset name.  get_releases maps a
fetch failure to the empty list, so an empty Env.releases models both
an empty list and a failed fetch, exactly as in main.  The filesystem
slice touched by the script (the files directory and its symlinks) is an
explicit FS state.  Strings are Lean strings; Python truthiness of a tag
string (empty means false) is modelled by pyTruthy.  Character classes of
the regular expression in extract_checksum_from_body and of fnmatch are
translated for the character ranges the script manipulates (ASCII); the
logging, the pages installation and the config echo and timestamp fields
of the summary are side effects and constants that no claim touches, so
they are not modelled.
-/

/-- A release as returned by gh release list with fields
tagName, isPrerelease, isLatest (src/sync.py get_releases). -/
structure Release where
  tagName : String
  isPrerelease : Bool
  isLatest : Bool
deriving DecidableEq

/-- An asset of a release: filename and byte size (src/sync.py). -/
structure Asset where
  name : String
  size : Nat
deriving DecidableEq

/-- Detailed release data as returned by gh release view
(src/sync.py get_release_details). -/
structure RelDetails where
  tagName : String
  name : String
  body : String
  isPrerelease : Bool
  publishedAt : String
  assets : List Asset
deriving DecidableEq

/-- Python truthiness of an optional tag string: None and the empty
string are falsy. -/
def pyTruthy : Option String → Bool
  | none => false
  | some s => !s.data.isEmpty

/-- Python str.endswith for the checksum suffix checks of
find_matching_asset. -/
def strEnds (s suf : String) : Bool := suf.data.isSuffixOf s.data

/-- Python str.lower, characterwise (the app names involved are ASCII). -/
def strLower (s : String) : String := ⟨s.data.map Char.toLower⟩

/-- Split a character list at every slash; used to model pathlib name
extraction. -/
def splitSlash : List Char → List (List Char)
  | [] => [[]]
  | '/' :: cs => [] :: splitSlash cs
  | c :: cs =>
    match splitSlash cs with
    | [] => [[c]]
    | g :: gs => (c :: g) :: gs

/-- pathlib PurePath.name: the last nonempty component of the path. -/
def pathNameChars (s : String) : List Char :=
  ((splitSlash s.data).filter (fun g => !g.isEmpty)).getLastD []

/-- Index of the last dot of a character list, as Python str.rfind. -/
def rfindDotAux : List Char → Nat → Option Nat → Option Nat
  | [], _, acc => acc
  | c :: cs, i, acc => rfindDotAux cs (i + 1) (if c = '.' then some i else acc)

/-- pathlib PurePath.stem: the name with its last extension removed;
the extension starts at the last dot i with 0 < i < length - 1. -/
def pathStemChars (s : String) : List Char :=
  let nm := pathNameChars s
  match rfindDotAux nm 0 none with
  | some i => if 0 < i ∧ i < nm.length - 1 then nm.take i else nm
  | none => nm

/-- pathlib PurePath.suffix: the last extension including the dot,
empty when there is none. -/
def pathSuffix (s : String) : String :=
  let nm := pathNameChars s
  match rfindDotAux nm 0 none with
  | some i => if 0 < i ∧ i < nm.length - 1 then (⟨nm.drop i⟩ : String) else ""
  | none => ""

/-! fnmatch.  find_matching_asset calls fnmatch.fnmatch(name, pattern);
on POSIX os.path.normcase is the identity, so this is a case sensitive
glob match with the star, question mark and bracket forms of
fnmatch.translate. -/

/-- A token of a glob pattern: star, single-character wildcard, literal
character, or a bracket class with a negation flag and character ranges. -/
inductive GTok where
  | star : GTok
  | anyc : GTok
  | lit : Char → GTok
  | brack : Bool → List (Char × Char) → GTok
deriving DecidableEq

/-- Scan a bracket body up to the closing bracket; none when the pattern
has no closing bracket (then the opening bracket is a literal). -/
def scanClose : List Char → Option (List Char × List Char)
  | [] => none
  | ']' :: rest => some ([], rest)
  | c :: rest =>
    match scanClose rest with
    | none => none
    | some (content, rem) => some (c :: content, rem)

/-- Parse bracket content into ranges: a dash between two characters is
a range, every other character stands for itself. -/
def brackItems : List Char → List (Char × Char)
  | [] => []
  | a :: '-' :: b :: rest => (a, b) :: brackItems rest
  | a :: rest => (a, a) :: brackItems rest

/-- Parse one bracket class after its opening bracket, following
fnmatch.translate: an optional leading exclamation mark negates, a
closing bracket right after it is literal content. -/
def splitBrack (ps : List Char) : Option (GTok × List Char) :=
  let neg : Bool := match ps with
    | '!' :: _ => true
    | _ => false
  let ps1 : List Char := match ps with
    | '!' :: t => t
    | _ => ps
  match ps1 with
  | ']' :: t =>
    match scanClose t with
    | none => none
    | some (content, rem) => some (GTok.brack neg (brackItems (']' :: content)), rem)
  | _ =>
    match scanClose ps1 with
    | none => none
    | some (content, rem) => some (GTok.brack neg (brackItems content), rem)

/-- Tokenize a glob pattern.  The fuel argument only bounds the
recursion; every step consumes at least one pattern character, so fuel
equal to the pattern length plus one never runs out. -/
def tokenizeGlob : Nat → List Char → List GTok
  | 0, _ => []
  | _, [] => []
  | fuel + 1, '*' :: ps => GTok.star :: tokenizeGlob fuel ps
  | fuel + 1, '?' :: ps => GTok.anyc :: tokenizeGlob fuel ps
  | fuel + 1, '[' :: ps =>
    match splitBrack ps with
    | some (tok, rem) => tok :: tokenizeGlob fuel rem
    | none => GTok.lit '[' :: tokenizeGlob fuel ps
  | fuel + 1, c :: ps => GTok.lit c :: tokenizeGlob fuel ps

/-- Whether a character falls in one of the ranges of a bracket class. -/
def inBrack (items : List (Char × Char)) (c : Char) : Bool :=
  items.any (fun p => decide (p.1 ≤ c) && decide (c ≤ p.2))

/-- Match a token list against a character list; star matches any
suffix transition.  The fuel only bounds recursion depth: every
recursive call strips one token, so fuel above the token count never
runs out. -/
def gmatch : Nat → List GTok → List Char → Bool
  | 0, _, _ => false
  | _ + 1, [], s => s.isEmpty
  | fuel + 1, GTok.star :: ts, s => s.tails.any (fun t => gmatch fuel ts t)
  | fuel + 1, GTok.anyc :: ts, s =>
    match s with
    | [] => false
    | _ :: cs => gmatch fuel ts cs
  | fuel + 1, GTok.lit c :: ts, s =>
    match s with
    | [] => false
    | d :: cs => decide (c = d) && gmatch fuel ts cs
  | fuel + 1, GTok.brack neg items :: ts, s =>
    match s with
    | [] => false
    | d :: cs => (if neg then !inBrack items d else inBrack items d) && gmatch fuel ts cs

/-- fnmatch.fnmatch(name, pat) on POSIX (case sensitive, full match). -/
def fnmatch (name pat : String) : Bool :=
  let toks := tokenizeGlob (pat.data.length + 1) pat.data
  gmatch (toks.length + 1) toks name.data

/-- src/sync.py find_matching_asset: walk the asset list in order,
skip names ending in .sha256 or .md5, return the first glob match. -/
def find_matching_asset : List Asset → String → Option Asset
  | [], _ => none
  | a :: rest, pat =>
    if strEnds a.name ".sha256" || strEnds a.name ".md5" then find_matching_asset rest pat
    else if fnmatch a.name pat then some a
    else find_matching_asset rest pat

/-! Checksum extraction.  extract_checksum_from_body searches the body
for the regular expression ([a-f0-9]{64})\s+.*STEM with IGNORECASE,
where STEM is re.escape of Path(filename).stem, and returns group 1 of
the leftmost match.  Dot does not cross a newline; backslash-s does. -/

/-- The hex character class of the checksum pattern under IGNORECASE. -/
def isHexCI (c : Char) : Bool :=
  (decide ('0' ≤ c) && decide (c ≤ '9')) || (decide ('a' ≤ c) && decide (c ≤ 'f'))
    || (decide ('A' ≤ c) && decide (c ≤ 'F'))

/-- Lowercase hex characters, the literal reading of the class. -/
def isLowerHex (c : Char) : Bool :=
  (decide ('0' ≤ c) && decide (c ≤ '9')) || (decide ('a' ≤ c) && decide (c ≤ 'f'))

/-- The whitespace class backslash-s for the ASCII range. -/
def isPySpace (c : Char) : Bool :=
  decide (c = ' ') || decide (c = '\t') || decide (c = '\n') || decide (c = '\r')
    || decide (c = '\x0b') || decide (c = '\x0c')

/-- Case insensitive character equality (IGNORECASE on ASCII). -/
def ciEqChar (a b : Char) : Bool := a.toLower == b.toLower

/-- Case insensitive test that the first list starts the second. -/
def ciLeads : List Char → List Char → Bool
  | [], _ => true
  | _ :: _, [] => false
  | a :: as, b :: bs => ciEqChar a b && ciLeads as bs

/-- Match of the regex fragment .*STEM at a position: skip any number
of non-newline characters, then the stem case insensitively. -/
def dotStarStem (stem : List Char) : List Char → Bool
  | [] => ciLeads stem []
  | c :: cs => ciLeads stem (c :: cs) || (!decide (c = '\n') && dotStarStem stem cs)

/-- Match of the regex fragment backslash-s+.*STEM at a position: one
or more whitespace characters, then dotStarStem. -/
def wsThenStem (stem : List Char) : List Char → Bool
  | [] => false
  | c :: cs => isPySpace c && (dotStarStem stem cs || wsThenStem stem cs)

/-- Whether the full checksum pattern matches at this position: exactly
64 hex characters, then whitespace, then the stem in the same line
region. -/
def matchAt (stem s : List Char) : Bool :=
  ((s.take 64).length == 64) && (s.take 64).all isHexCI && wsThenStem stem (s.drop 64)

/-- re.search: try every position left to right, return group 1 of the
first match (the 64 hex characters, in their original casing). -/
def searchAux (stem : List Char) : List Char → Option (List Char)
  | [] => none
  | c :: cs => if matchAt stem (c :: cs) then some ((c :: cs).take 64) else searchAux stem cs

/-- Whether the checksum pattern matches anywhere in the body. -/
def hasTokenMatch (stem : List Char) : List Char → Bool
  | [] => matchAt stem []
  | c :: cs => matchAt stem (c :: cs) || hasTokenMatch stem cs

/-- src/sync.py extract_checksum_from_body: the leftmost hex token of
the body followed by whitespace and, in the same line region, the stem
of the filename; None (here none) when there is no match. -/
def extract_checksum_from_body (body filename : String) : Option String :=
  (searchAux (pathStemChars filename) body.data).map (fun cs => (⟨cs⟩ : String))

/-! Release selection, src/sync.py main lines 213 to 226.  The first
loop keeps the tag of the last release flagged isLatest and the tag of
the first prerelease seen while the prerelease variable is still falsy;
the second loop runs only when the stable variable is falsy and takes
the first non-prerelease release. -/

/-- The scanning loop over the release list with the two tag variables
as accumulators (Python assignment semantics, elif included). -/
def scanTags : List Release → Option String → Option String → Option String × Option String
  | [], st, pr => (st, pr)
  | r :: rs, st, pr =>
    if r.isLatest then scanTags rs (some r.tagName) pr
    else if r.isPrerelease && !pyTruthy pr then scanTags rs st (some r.tagName)
    else scanTags rs st pr

/-- The stable tag after both loops: the scan result when truthy,
otherwise the tag of the first non-prerelease release. -/
def latestStableTag (rs : List Release) : Option String :=
  if pyTruthy (scanTags rs none none).1 then (scanTags rs none none).1
  else
    match rs.find? (fun r => !r.isPrerelease) with
    | some r => some r.tagName
    | none => (scanTags rs none none).1

/-- The prerelease tag variable after the scanning loop. -/
def latestPrereleaseTag (rs : List Release) : Option String :=
  (scanTags rs none none).2

/-- The candidate the specification describes for the prerelease slot:
the first release in returned order flagged prerelease whose tag is
distinct from the selected stable tag.  Stated from the wording of the
specification to compare against the code. -/
def specPrereleaseCandidate (rs : List Release) : Option String :=
  (rs.find? (fun r => r.isPrerelease && decide (some r.tagName ≠ latestStableTag rs))).map
    (fun r => r.tagName)

/-! The environment and filesystem model for main. -/

/-- Configuration slice used by the claims: app_name, asset_pattern
(default star) and max_releases (default 10).  The repository
identifier only parametrizes the gh calls and lives in the oracles. -/
structure Config where
  app_name : String
  asset_pattern : String
  max_releases : Nat
deriving DecidableEq

/-- External world: the fetched release list ([] models a failed or
empty fetch, as get_releases returns), the per-tag details call and the
per-download success oracle. -/
structure Env where
  releases : List Release
  details : String → Option RelDetails
  dlOk : String → String → Bool

/-- The files directory: plain files and symlinks (name, target). -/
structure FS where
  files : List String
  links : List (String × String)
deriving DecidableEq

/-- src/sync.py download_asset.  Result: new filesystem, the returned
success flag, and whether the external tool was invoked.  A file
already present short-circuits with success and no invocation. -/
def download_asset (env : Env) (tag : String) (a : Asset) (fs : FS) : FS × Bool × Bool :=
  if fs.files.any (fun f => decide (f = a.name)) then (fs, true, false)
  else if env.dlOk tag a.name then ((⟨a.name :: fs.files, fs.links⟩ : FS), true, true)
  else (fs, false, true)

/-- src/sync.py update_latest_symlink: unlink any file or link named
app-latest with the asset suffix, then create the symlink only when the
target file exists. -/
def update_latest_symlink (app_name stable_filename : String) (fs : FS) : FS :=
  let symlink_name := strLower app_name ++ "-latest" ++ pathSuffix stable_filename
  let files1 := fs.files.filter (fun f => decide (f ≠ symlink_name))
  let links1 := fs.links.filter (fun p => decide (p.1 ≠ symlink_name))
  if files1.any (fun f => decide (f = stable_filename)) then
    (⟨files1, (symlink_name, stable_filename) :: links1⟩ : FS)
  else (⟨files1, links1⟩ : FS)

/-- A latest_stable or latest_prerelease record of the summary. -/
structure Entry where
  tag : String
  name : String
  published_at : String
  body : String
  asset_filename : String
  asset_size : Nat
  checksum : Option String
deriving DecidableEq

/-- An all_releases record of the summary (adds is_prerelease). -/
structure AllEntry where
  tag : String
  name : String
  is_prerelease : Bool
  published_at : String
  body : String
  asset_filename : String
  asset_size : Nat
  checksum : Option String
deriving DecidableEq

/-- Build a latest_stable or latest_prerelease record from details and
the matched asset (src/sync.py lines 252 to 260 and 269 to 276). -/
def mkStableEntry (d : RelDetails) (a : Asset) : Entry :=
  ⟨d.tagName, d.name, d.publishedAt, d.body, a.name, a.size,
    extract_checksum_from_body d.body a.name⟩

/-- Build an all_releases record (src/sync.py lines 289 to 298). -/
def mkAllEntry (d : RelDetails) (a : Asset) : AllEntry :=
  ⟨d.tagName, d.name, d.isPrerelease, d.publishedAt, d.body, a.name, a.size,
    extract_checksum_from_body d.body a.name⟩

/-- The summary data written to releases.json, restricted to the three
release fields (the config echo and the timestamp are constants of the
run that no claim mentions). -/
structure SyncData where
  latest_stable : Option Entry
  latest_prerelease : Option Entry
  all_releases : List AllEntry
deriving DecidableEq

/-- src/sync.py lines 246 to 261: process the stable tag.  Guarded by
truthiness of the tag; details failure, no asset match and download
failure leave the slot empty; on success the record is built and the
symlink updated. -/
def processStable (cfg : Config) (env : Env) (stableTag : Option String) (fs : FS) :
    Option Entry × FS :=
  match stableTag with
  | none => (none, fs)
  | some t =>
    if t.data.isEmpty then (none, fs)
    else
      match env.details t with
      | none => (none, fs)
      | some d =>
        match find_matching_asset d.assets cfg.asset_pattern with
        | none => (none, fs)
        | some a =>
          if (download_asset env t a fs).2.1 then
            (some (mkStableEntry d a),
              update_latest_symlink cfg.app_name a.name (download_asset env t a fs).1)
          else (none, (download_asset env t a fs).1)

/-- src/sync.py lines 263 to 277: process the prerelease tag.  Guarded
by truthiness and by distinctness from the stable tag; no symlink. -/
def processPre (cfg : Config) (env : Env) (stableTag preTag : Option String) (fs : FS) :
    Option Entry × FS :=
  match preTag with
  | none => (none, fs)
  | some p =>
    if !p.data.isEmpty && decide (some p ≠ stableTag) then
      match env.details p with
      | none => (none, fs)
      | some d =>
        match find_matching_asset d.assets cfg.asset_pattern with
        | none => (none, fs)
        | some a => ((if (download_asset env p a fs).2.1 then some (mkStableEntry d a) else none),
            (download_asset env p a fs).1)
    else (none, fs)

/-- The record the all_releases loop would append for one release:
none exactly when the details call fails or no asset matches.  The
download result does not enter the decision (line 287 ignores it). -/
def releaseEntry (cfg : Config) (env : Env) (r : Release) : Option AllEntry :=
  match env.details r.tagName with
  | none => none
  | some d =>
    match find_matching_asset d.assets cfg.asset_pattern with
    | none => none
    | some a => some (mkAllEntry d a)

/-- src/sync.py lines 280 to 298: the all_releases loop.  Download is
attempted for a matched asset (threading the filesystem) but the entry
is appended whether or not it succeeded. -/
def processAll (cfg : Config) (env : Env) : List Release → FS → List AllEntry × FS
  | [], fs => ([], fs)
  | r :: rs, fs =>
    match env.details r.tagName with
    | none => processAll cfg env rs fs
    | some d =>
      match find_matching_asset d.assets cfg.asset_pattern with
      | none => processAll cfg env rs fs
      | some a =>
        (mkAllEntry d a :: (processAll cfg env rs (download_asset env r.tagName a fs).1).1,
          (processAll cfg env rs (download_asset env r.tagName a fs).1).2)

/-- src/sync.py main after a successful fetch (lines 213 to 307):
selection, stable slot, prerelease slot, all_releases loop. -/
def runMain (cfg : Config) (env : Env) (fs0 : FS) : SyncData × FS :=
  let stTag := latestStableTag env.releases
  let prTag := latestPrereleaseTag env.releases
  let p1 := processStable cfg env stTag fs0
  let p2 := processPre cfg env stTag prTag p1.2
  let p3 := processAll cfg env (env.releases.take cfg.max_releases) p2.2
  ((⟨p1.1, p2.1, p3.1⟩ : SyncData), p3.2)

/-- The whole process: load_config exits 1 when the file is missing
(modelled by none); main exits 1 when the fetched list is empty; every
other run completes. -/
def sync (cfgOpt : Option Config) (env : Env) (fs : FS) : Except Unit (SyncData × FS) :=
  match cfgOpt with
  | none => Except.error ()
  | some cfg => if env.releases.isEmpty then Except.error () else Except.ok (runMain cfg env fs)

/-- The process exit status: 1 on the two fatal paths, else 0. -/
def syncExitCode (cfgOpt : Option Config) (env : Env) (fs : FS) : Nat :=
  match sync cfgOpt env fs with
  | Except.error _ => 1
  | Except.ok _ => 0

/-! Helper lemmas. -/

theorem takeLenAppend {α : Type} (l₁ l₂ : List α) : (l₁ ++ l₂).take l₁.length = l₁ := by
  induction l₁ with
  | nil => rfl
  | cons a as ih => simp [List.cons_append, List.take_succ_cons, ih]

theorem dropLenAppend {α : Type} (l₁ l₂ : List α) : (l₁ ++ l₂).drop l₁.length = l₂ := by
  induction l₁ with
  | nil => rfl
  | cons a as ih => simp [List.cons_append, List.drop_succ_cons, ih]

theorem strDataAppend (a b : String) : (a ++ b).data = a.data ++ b.data := by
  cases a
  cases b
  rfl

theorem allHexMono (l : List Char) (h : l.all isLowerHex = true) : l.all isHexCI = true := by
  rw [List.all_eq_true] at h ⊢
  intro c hc
  have hx := h c hc
  simp only [isLowerHex, Bool.or_eq_true, Bool.and_eq_true, decide_eq_true_eq] at hx
  simp only [isHexCI, Bool.or_eq_true, Bool.and_eq_true, decide_eq_true_eq]
  tauto

theorem pyTruthy_some (s : String) (h : s ≠ "") : pyTruthy (some s) = true := by
  cases s with
  | mk data =>
    cases data with
    | nil => exact absurd rfl h
    | cons c cs => rfl

theorem searchAux_append_start (stem hd rest : List Char) (hlen : hd.length = 64)
    (hhex : hd.all isHexCI = true) (hws : wsThenStem stem rest = true) :
    searchAux stem (hd ++ rest) = some hd := by
  have ht : (hd ++ rest).take 64 = hd := by
    rw [← hlen]
    exact takeLenAppend hd rest
  have hdp : (hd ++ rest).drop 64 = rest := by
    rw [← hlen]
    exact dropLenAppend hd rest
  have hmatch : matchAt stem (hd ++ rest) = true := by
    simp [matchAt, ht, hdp, hlen, hhex, hws]
  cases hd with
  | nil => simp at hlen
  | cons c tl =>
    have hm2 : matchAt stem (c :: (tl ++ rest)) = true := by simpa using hmatch
    have ht2 : (c :: (tl ++ rest)).take 64 = c :: tl := by simpa using ht
    simp [searchAux, hm2, ht2]

theorem searchAux_eq_none (stem s : List Char) (h : hasTokenMatch stem s = false) :
    searchAux stem s = none := by
  induction s with
  | nil => rfl
  | cons c cs ih =>
    simp only [hasTokenMatch, Bool.or_eq_false_iff] at h
    simp [searchAux, h.1, ih h.2]

/-! Lemmas on the selection scan. -/

theorem scanTags_fst_no_latest (rs : List Release) :
    (∀ x ∈ rs, x.isLatest = false) → ∀ st pr, (scanTags rs st pr).1 = st := by
  induction rs with
  | nil => intro _ st pr; rfl
  | cons r rs ih =>
    intro h st pr
    have hr : r.isLatest = false := h r (by simp)
    have hrs : ∀ x ∈ rs, x.isLatest = false := fun x hx => h x (by simp [hx])
    simp only [scanTags, hr, Bool.false_eq_true, if_false]
    split
    · exact ih hrs st _
    · exact ih hrs st pr

theorem scanTags_fst_latest (rs : List Release) (T : String) :
    rs.any (fun x => x.isLatest) = true →
    (∀ x ∈ rs, x.isLatest = true → x.tagName = T) →
    ∀ st pr, (scanTags rs st pr).1 = some T := by
  induction rs with
  | nil => intro hany; simp at hany
  | cons r rs ih =>
    intro hany hall st pr
    by_cases hr : r.isLatest = true
    · have hT : r.tagName = T := hall r (by simp) hr
      simp only [scanTags, hr, if_true, hT]
      by_cases hrs : rs.any (fun x => x.isLatest) = true
      · exact ih hrs (fun x hx h2 => hall x (by simp [hx]) h2) _ _
      · have hno : ∀ x ∈ rs, x.isLatest = false := by
          intro x hx
          by_contra hc
          exact hrs (List.any_eq_true.mpr ⟨x, hx, by simpa using hc⟩)
        exact scanTags_fst_no_latest rs hno (some T) pr
    · have hr' : r.isLatest = false := by simpa using hr
      have hany' : rs.any (fun x => x.isLatest) = true := by
        simpa [List.any_cons, hr'] using hany
      have hall' : ∀ x ∈ rs, x.isLatest = true → x.tagName = T :=
        fun x hx h2 => hall x (by simp [hx]) h2
      simp only [scanTags, hr', Bool.false_eq_true, if_false]
      split
      · exact ih hany' hall' st _
      · exact ih hany' hall' st pr

theorem scanTags_snd_stuck (rs : List Release) :
    ∀ st pr, pyTruthy pr = true → (scanTags rs st pr).2 = pr := by
  induction rs with
  | nil => intro st pr _; rfl
  | cons r rs ih =>
    intro st pr h
    simp only [scanTags, h]
    split
    · exact ih _ pr h
    · simp [ih _ pr h]

theorem scanTags_snd_find (rs : List Release) :
    (∀ x ∈ rs, x.tagName ≠ "") → ∀ st,
    (scanTags rs st none).2
      = (rs.find? (fun x => !x.isLatest && x.isPrerelease)).map (fun x => x.tagName) := by
  induction rs with
  | nil => intro _ st; rfl
  | cons r rs ih =>
    intro hne st
    have hne' : ∀ x ∈ rs, x.tagName ≠ "" := fun x hx => hne x (by simp [hx])
    by_cases hl : r.isLatest = true
    · simp only [scanTags, hl, if_true, List.find?_cons, Bool.not_true, Bool.false_and]
      exact ih hne' _
    · have hl' : r.isLatest = false := by simpa using hl
      by_cases hp : r.isPrerelease = true
      · have hgd : (r.isPrerelease && !pyTruthy (none : Option String)) = true := by
          simp [hp, pyTruthy]
        simp only [scanTags, hl', Bool.false_eq_true, if_false, hgd, if_true,
          List.find?_cons, hl', hp, Bool.not_false, Bool.true_and, Option.map_some']
        exact scanTags_snd_stuck rs st _ (pyTruthy_some _ (hne r (by simp)))
      · have hp' : r.isPrerelease = false := by simpa using hp
        simp only [scanTags, hl', Bool.false_eq_true, if_false, hp', Bool.false_and,
          List.find?_cons, Bool.not_false, Bool.and_false]
        exact ih hne' st

/-! Filesystem lemmas for the symlink invariant and the loop shape. -/

theorem download_asset_links (env : Env) (tag : String) (a : Asset) (fs : FS) :
    (download_asset env tag a fs).1.links = fs.links := by
  unfold download_asset
  split
  · rfl
  · split
    · rfl
    · rfl

theorem download_asset_mem (env : Env) (tag : String) (a : Asset) (fs : FS)
    (h : (download_asset env tag a fs).2.1 = true) :
    a.name ∈ (download_asset env tag a fs).1.files := by
  unfold download_asset at h ⊢
  by_cases h1 : fs.files.any (fun f => decide (f = a.name)) = true
  · simp only [h1, if_true]
    obtain ⟨f, hf, he⟩ := List.any_eq_true.mp h1
    simp only [decide_eq_true_eq] at he
    exact he ▸ hf
  · simp only [h1] at h ⊢
    by_cases h2 : env.dlOk tag a.name = true
    · simp [h2]
    · simp [h2] at h

theorem update_link_mem (app fname : String) (fs : FS)
    (hmem : fname ∈ fs.files)
    (hne : strLower app ++ "-latest" ++ pathSuffix fname ≠ fname) :
    (strLower app ++ "-latest" ++ pathSuffix fname, fname) ∈
      (update_latest_symlink app fname fs).links := by
  unfold update_latest_symlink
  have hmem' : fname ∈ fs.files.filter
      (fun f => decide (f ≠ strLower app ++ "-latest" ++ pathSuffix fname)) := by
    refine List.mem_filter.mpr ⟨hmem, ?_⟩
    simp only [decide_eq_true_eq]
    exact fun hEq => hne hEq.symm
  have hany : (fs.files.filter
      (fun f => decide (f ≠ strLower app ++ "-latest" ++ pathSuffix fname))).any
      (fun f => decide (f = fname)) = true :=
    List.any_eq_true.mpr ⟨fname, hmem', by simp⟩
  simp only [hany, if_true]
  exact List.mem_cons_self _ _

theorem processPre_links (cfg : Config) (env : Env) (st pt : Option String) (fs : FS) :
    (processPre cfg env st pt fs).2.links = fs.links := by
  cases pt with
  | none => rfl
  | some p =>
    simp only [processPre]
    split
    · cases hd : env.details p with
      | none => rfl
      | some d =>
        simp only []
        cases hf : find_matching_asset d.assets cfg.asset_pattern with
        | none => rfl
        | some a => simp [download_asset_links]
    · rfl

theorem processAll_links (cfg : Config) (env : Env) :
    ∀ (rs : List Release) (fs : FS), (processAll cfg env rs fs).2.links = fs.links := by
  intro rs
  induction rs with
  | nil => intro fs; rfl
  | cons r rs ih =>
    intro fs
    unfold processAll
    split
    · exact ih fs
    · split
      · exact ih fs
      · simp [ih, download_asset_links]

theorem processAll_fst (cfg : Config) (env : Env) :
    ∀ (rs : List Release) (fs : FS),
      (processAll cfg env rs fs).1 = rs.filterMap (releaseEntry cfg env) := by
  intro rs
  induction rs with
  | nil => intro fs; rfl
  | cons r rs ih =>
    intro fs
    cases hd : env.details r.tagName with
    | none => simp [processAll, hd, releaseEntry, List.filterMap_cons, ih]
    | some d =>
      cases hf : find_matching_asset d.assets cfg.asset_pattern with
      | none => simp [processAll, hd, hf, releaseEntry, List.filterMap_cons, ih]
      | some a => simp [processAll, hd, hf, releaseEntry, List.filterMap_cons, ih]

theorem processStable_some_link (cfg : Config) (env : Env) (st : Option String) (fs : FS)
    (e : Entry) (h : (processStable cfg env st fs).1 = some e)
    (hne : strLower cfg.app_name ++ "-latest" ++ pathSuffix e.asset_filename
      ≠ e.asset_filename) :
    (strLower cfg.app_name ++ "-latest" ++ pathSuffix e.asset_filename, e.asset_filename) ∈
      (processStable cfg env st fs).2.links := by
  unfold processStable at h ⊢
  cases st with
  | none => simp at h
  | some t =>
    by_cases hemp : t.data.isEmpty = true
    · simp [hemp] at h
    · simp only [hemp, Bool.false_eq_true, if_false] at h ⊢
      cases hd : env.details t with
      | none => simp [hd] at h
      | some d =>
        simp only [hd] at h ⊢
        cases hf : find_matching_asset d.assets cfg.asset_pattern with
        | none => simp [hf] at h
        | some a =>
          simp only [hf] at h ⊢
          by_cases hw : (download_asset env t a fs).2.1 = true
          · simp only [hw, if_true] at h ⊢
            have he : e = mkStableEntry d a := (Option.some.inj h).symm
            subst he
            have hfn : (mkStableEntry d a).asset_filename = a.name := rfl
            rw [hfn] at hne ⊢
            exact update_link_mem cfg.app_name a.name _ (download_asset_mem env t a fs hw) hne
          · simp only [hw] at h
            simp at h

/-! Concrete fixtures used by witnesses and counterexamples. -/

/-- A configuration with the default glob pattern. -/
def cfgW : Config := ⟨"App", "*", 10⟩

/-- Details of a release with one matching binary asset. -/
def dW : RelDetails := ⟨"v1", "Rel 1", "body text", false, "2024-01-01", [⟨"app-1.0.bin", 5⟩]⟩

/-- The empty files directory. -/
def fsE : FS := ⟨[], []⟩

/-- One stable release, details available, downloads succeed. -/
def envDlOk : Env :=
  ⟨[⟨"v1", false, true⟩], fun t => if t = "v1" then some dW else none, fun _ _ => true⟩

/-- One stable release, details available, downloads fail. -/
def envDlFail : Env :=
  ⟨[⟨"v1", false, true⟩], fun t => if t = "v1" then some dW else none, fun _ _ => false⟩

/-- A later run that fetches only a prerelease and no details. -/
def envRun2 : Env := ⟨[⟨"v2", true, false⟩], fun _ => none, fun _ _ => false⟩

/-! Claim C1. -/

/-- Claim C1 (amended): a release flagged isLatest is chosen as the
stable tag regardless of its position, provided its tag is nonempty
(an empty tag is falsy in Python and triggers the non-prerelease
fallback) and every isLatest-flagged release carries that same tag
(the scan keeps the last flagged one). -/
theorem c1_latest_flag_wins (rs : List Release) (r : Release) (h1 : r ∈ rs)
    (h2 : r.isLatest = true) (h3 : r.tagName ≠ "")
    (h4 : ∀ x ∈ rs, x.isLatest = true → x.tagName = r.tagName) :
    latestStableTag rs = some r.tagName := by
  have hany : rs.any (fun x => x.isLatest) = true := List.any_eq_true.mpr ⟨r, h1, h2⟩
  have hsc := scanTags_fst_latest rs r.tagName hany h4 none none
  have htr : pyTruthy (some r.tagName) = true := pyTruthy_some _ h3
  simp [latestStableTag, hsc, htr]

/-- The list refuting Claim C1 as stated: the flagged release has the
empty tag, which Python treats as unset. -/
def rsC1 : List Release := [⟨"v0", false, false⟩, ⟨"", false, true⟩]

/-- Claim C1 counterexample: rsC1 contains a release flagged isLatest
with tag empty, yet the selected stable tag is the fallback v0, not the
flagged tag. -/
theorem c1_cex : (⟨"", false, true⟩ : Release) ∈ rsC1
    ∧ Release.isLatest ⟨"", false, true⟩ = true
    ∧ latestStableTag rsC1 = some "v0"
    ∧ latestStableTag rsC1 ≠ some "" := by decide

/-- A list whose flagged release sits in the middle. -/
def rsW1 : List Release := [⟨"v2", true, false⟩, ⟨"v1", false, true⟩, ⟨"v0", false, false⟩]

/-- Witness for Claim C1 at a concrete list. -/
theorem c1_wit : ((⟨"v1", false, true⟩ : Release) ∈ rsW1 ∧ ("v1" : String) ≠ "")
    ∧ latestStableTag rsW1 = some "v1" :=
  ⟨⟨by decide, by decide⟩,
    c1_latest_flag_wins rsW1 ⟨"v1", false, true⟩ (by decide) (by decide) (by decide) (by decide)⟩

/-! Claim C7. -/

/-- Claim C7: when no release carries the isLatest flag, the first
release in returned order whose prerelease flag is false is chosen as
the stable release. -/
theorem c7_first_nonpre (rs : List Release) (r : Release)
    (h1 : ∀ x ∈ rs, x.isLatest = false)
    (h2 : rs.find? (fun x => !x.isPrerelease) = some r) :
    latestStableTag rs = some r.tagName := by
  have hsc : (scanTags rs none none).1 = none := scanTags_fst_no_latest rs h1 none none
  simp [latestStableTag, hsc, h2, pyTruthy]

/-- A list with no isLatest flag and a first non-prerelease in the
middle. -/
def rsW7 : List Release := [⟨"p1", true, false⟩, ⟨"v1", false, false⟩, ⟨"v0", false, false⟩]

/-- Witness for Claim C7 at a concrete list. -/
theorem c7_wit : ((∀ x ∈ rsW7, x.isLatest = false)
      ∧ rsW7.find? (fun x => !x.isPrerelease) = some ⟨"v1", false, false⟩)
    ∧ latestStableTag rsW7 = some "v1" :=
  ⟨⟨by decide, by decide⟩, c7_first_nonpre rsW7 ⟨"v1", false, false⟩ (by decide) (by decide)⟩

/-! Claim C4. -/

/-- Claim C4: an asset whose file already exists at the destination is
not downloaded again: download_asset returns success, does not invoke
the external tool, and leaves the filesystem unchanged, so a re-run
with assets present converges to the same state. -/
theorem c4_download_skip (env : Env) (tag : String) (a : Asset) (fs : FS)
    (h : fs.files.any (fun f => decide (f = a.name)) = true) :
    download_asset env tag a fs = (fs, true, false) := by
  simp [download_asset, h]

/-- A files directory already holding the asset. -/
def fsHave : FS := ⟨["app-1.0.bin"], []⟩

/-- Witness for Claim C4: the asset is present and the download oracle
would fail, yet the call succeeds without invoking the tool. -/
theorem c4_wit : fsHave.files.any (fun f => decide (f = Asset.name ⟨"app-1.0.bin", 5⟩)) = true
    ∧ download_asset envDlFail "v1" ⟨"app-1.0.bin", 5⟩ fsHave = (fsHave, true, false) :=
  ⟨by decide, c4_download_skip envDlFail "v1" ⟨"app-1.0.bin", 5⟩ fsHave (by decide)⟩

/-! Claim C5. -/

/-- Claim C5: an asset whose name ends in .sha256 or .md5 is never the
selected asset, even when its name matches the glob pattern, and the
selection equals the first asset in list order that is not a checksum
file and matches the pattern. -/
theorem c5_asset_matching : ∀ (assets : List Asset) (pat : String),
    ((find_matching_asset assets pat).all
      (fun a => !(strEnds a.name ".sha256" || strEnds a.name ".md5"))) = true
    ∧ find_matching_asset assets pat
      = assets.find? (fun a => !(strEnds a.name ".sha256" || strEnds a.name ".md5")
          && fnmatch a.name pat) := by
  intro assets pat
  induction assets with
  | nil => exact ⟨rfl, rfl⟩
  | cons a rest ih =>
    by_cases hs : (strEnds a.name ".sha256" || strEnds a.name ".md5") = true
    · constructor
      · simpa [find_matching_asset, hs] using ih.1
      · simp only [find_matching_asset, hs, if_true, List.find?_cons, Bool.not_true,
          Bool.false_and]
        exact ih.2
    · have hs' : (strEnds a.name ".sha256" || strEnds a.name ".md5") = false := by simpa using hs
      by_cases hm : fnmatch a.name pat = true
      · obtain ⟨ha, hb⟩ := Bool.or_eq_false_iff.mp hs'
        constructor
        · simp [find_matching_asset, hs', hm, ha, hb]
        · simp [find_matching_asset, hs', hm, ha, hb, List.find?_cons]
      · have hm' : fnmatch a.name pat = false := by simpa using hm
        constructor
        · simpa [find_matching_asset, hs', hm'] using ih.1
        · simp only [find_matching_asset, hs', Bool.false_eq_true, if_false, hm',
            List.find?_cons, Bool.not_false, Bool.true_and]
          exact ih.2

/-! Claim C9. -/

/-- Claim C9: the process exit status is nonzero exactly when the
configuration is missing or the fetched release list is empty (a fetch
error yields the empty list); every other run, downloads failing or
not, exits zero. -/
theorem c9_exit_status : ∀ (cfgOpt : Option Config) (env : Env) (fs : FS),
    syncExitCode cfgOpt env fs ≠ 0 ↔ (cfgOpt = none ∨ env.releases = []) := by
  intro cfgOpt env fs
  cases cfgOpt with
  | none => simp [syncExitCode, sync]
  | some cfg =>
    cases hr : env.releases with
    | nil => simp [syncExitCode, sync, hr]
    | cons a l => simp [syncExitCode, sync, hr]

/-! Claim C6. -/

/-- Claim C6: for asset myapp-1.0.0.tar.gz, a body starting with a
64-hex-character token followed by a space and that filename yields the
token as the extracted checksum; and any body in which the checksum
pattern (64 hex characters, whitespace, then the filename stem in the
same line region) matches nowhere yields none, which is not an error. -/
theorem c6_checksum_extraction :
    (∀ hx : String, hx.data.length = 64 → hx.data.all isLowerHex = true →
      extract_checksum_from_body (hx ++ " myapp-1.0.0.tar.gz") "myapp-1.0.0.tar.gz" = some hx)
    ∧ (∀ body fn : String, hasTokenMatch (pathStemChars fn) body.data = false →
      extract_checksum_from_body body fn = none) := by
  constructor
  · intro hx hlen hhex
    unfold extract_checksum_from_body
    rw [strDataAppend]
    rw [searchAux_append_start (pathStemChars "myapp-1.0.0.tar.gz") hx.data
      (" myapp-1.0.0.tar.gz" : String).data hlen (allHexMono hx.data hhex) (by decide)]
    cases hx
    rfl
  · intro body fn h
    unfold extract_checksum_from_body
    rw [searchAux_eq_none _ _ h]
    rfl

/-- A 64-character lowercase hex token. -/
def h64lo : String := "0123456789abcdef0123456789abcdef0123456789abcdef0123456789abcdef"

/-- A body with no checksum token. -/
def bodyNone : String := "no digest in this body"

/-- Witness for Claim C6 at a concrete token and a concrete tokenless
body. -/
theorem c6_wit :
    (h64lo.data.length = 64 ∧ h64lo.data.all isLowerHex = true
      ∧ extract_checksum_from_body (h64lo ++ " myapp-1.0.0.tar.gz") "myapp-1.0.0.tar.gz"
        = some h64lo)
    ∧ (hasTokenMatch (pathStemChars "myapp-1.0.0.tar.gz") bodyNone.data = false
      ∧ extract_checksum_from_body bodyNone "myapp-1.0.0.tar.gz" = none) :=
  ⟨⟨by decide, by decide, c6_checksum_extraction.1 h64lo (by decide) (by decide)⟩,
    ⟨by decide, c6_checksum_extraction.2 bodyNone "myapp-1.0.0.tar.gz" (by decide)⟩⟩

/-! Claim C10. -/

/-- Claim C10: the hex class is matched case insensitively, so an
uppercase or mixed-case 64-hex token followed by whitespace and the
filename stem on the same line is extracted, and it is returned in its
original casing (the matched substring itself). -/
theorem c10_checksum_case (hx : String) (hlen : hx.data.length = 64)
    (hhex : hx.data.all isHexCI = true) :
    extract_checksum_from_body (hx ++ " tool-2.1.zip") "tool-2.1.zip" = some hx := by
  unfold extract_checksum_from_body
  rw [strDataAppend]
  rw [searchAux_append_start (pathStemChars "tool-2.1.zip") hx.data
    (" tool-2.1.zip" : String).data hlen hhex (by decide)]
  cases hx
  rfl

/-- A mixed-case 64-character hex token. -/
def h64mix : String := "ABCDEF0123456789abcdef0123456789ABCDEF0123456789abcdef0123456789"

/-- Witness for Claim C10 at a mixed-case token: the result keeps the
original casing. -/
theorem c10_wit : (h64mix.data.length = 64 ∧ h64mix.data.all isHexCI = true)
    ∧ extract_checksum_from_body (h64mix ++ " tool-2.1.zip") "tool-2.1.zip" = some h64mix :=
  ⟨⟨by decide, by decide⟩, c10_checksum_case h64mix (by decide) (by decide)⟩

/-! Claim C2. -/

/-- Claim C2 (amended): in the all_releases loop a release whose
details call fails or with no matching asset is omitted and the loop
goes on independently per release (the output is a filterMap); but a
release whose download fails is not omitted there: the entry is
appended whatever the download result.  A download failure does omit
the release from the latest_stable slot. -/
theorem c2_per_release_handling :
    (∀ (cfg : Config) (env : Env) (rs : List Release) (fs : FS),
      (processAll cfg env rs fs).1 = rs.filterMap (releaseEntry cfg env))
    ∧ (∀ (cfg : Config) (env : Env) (r : Release),
      env.details r.tagName = none → releaseEntry cfg env r = none)
    ∧ (∀ (cfg : Config) (env : Env) (r : Release) (d : RelDetails),
      env.details r.tagName = some d →
      find_matching_asset d.assets cfg.asset_pattern = none → releaseEntry cfg env r = none)
    ∧ (∀ (cfg : Config) (env : Env) (r : Release) (d : RelDetails) (a : Asset),
      env.details r.tagName = some d →
      find_matching_asset d.assets cfg.asset_pattern = some a →
      releaseEntry cfg env r = some (mkAllEntry d a))
    ∧ (∀ (cfg : Config) (env : Env) (t : String) (d : RelDetails) (a : Asset) (fs : FS),
      env.details t = some d →
      find_matching_asset d.assets cfg.asset_pattern = some a →
      fs.files.any (fun f => decide (f = a.name)) = false → env.dlOk t a.name = false →
      (processStable cfg env (some t) fs).1 = none) := by
  refine ⟨fun cfg env => processAll_fst cfg env, ?_, ?_, ?_, ?_⟩
  · intro cfg env r h
    simp [releaseEntry, h]
  · intro cfg env r d h hf
    simp [releaseEntry, h, hf]
  · intro cfg env r d a h hf
    simp [releaseEntry, h, hf]
  · intro cfg env t d a fs hd hf hex hdl
    have hdlf : (download_asset env t a fs).2.1 = false := by
      simp [download_asset, hex, hdl]
    by_cases hemp : t.data.isEmpty = true
    · simp [processStable, hemp]
    · simp [processStable, hemp, hd, hf, hdlf]

/-- Claim C2 counterexample: with one stable release whose details and
asset match succeed but whose download fails, the release still appears
in all_releases while no file reached the disk. -/
theorem c2_cex : envDlFail.dlOk "v1" "app-1.0.bin" = false
    ∧ (runMain cfgW envDlFail fsE).1.all_releases.map (fun e => e.tag) = ["v1"]
    ∧ (runMain cfgW envDlFail fsE).2.files = [] := by decide

/-- Details holding only a checksum sidecar file. -/
def dShaOnly : RelDetails := ⟨"v1", "Rel 1", "body", false, "2024-01-01", [⟨"app.sha256", 1⟩]⟩

/-- One stable release whose details hold only a checksum file. -/
def envNoAsset : Env :=
  ⟨[⟨"v1", false, true⟩], fun t => if t = "v1" then some dShaOnly else none, fun _ _ => false⟩

/-- Witness for Claim C2: the loop shape at a concrete list, omission
on details failure and on match failure, non-omission on download
failure, and the stable slot left empty on download failure. -/
theorem c2_wit :
    ((processAll cfgW envDlFail [⟨"v1", false, true⟩] fsE).1
      = [(⟨"v1", false, true⟩ : Release)].filterMap (releaseEntry cfgW envDlFail))
    ∧ (envRun2.details "v2" = none ∧ releaseEntry cfgW envRun2 ⟨"v2", true, false⟩ = none)
    ∧ (envNoAsset.details "v1" = some dShaOnly
      ∧ find_matching_asset dShaOnly.assets cfgW.asset_pattern = none
      ∧ releaseEntry cfgW envNoAsset ⟨"v1", false, true⟩ = none)
    ∧ (envDlFail.details "v1" = some dW
      ∧ find_matching_asset dW.assets cfgW.asset_pattern = some ⟨"app-1.0.bin", 5⟩
      ∧ releaseEntry cfgW envDlFail ⟨"v1", false, true⟩
        = some (mkAllEntry dW ⟨"app-1.0.bin", 5⟩))
    ∧ (fsE.files.any (fun f => decide (f = Asset.name ⟨"app-1.0.bin", 5⟩)) = false
      ∧ envDlFail.dlOk "v1" "app-1.0.bin" = false
      ∧ (processStable cfgW envDlFail (some "v1") fsE).1 = none) :=
  ⟨c2_per_release_handling.1 cfgW envDlFail [⟨"v1", false, true⟩] fsE,
    ⟨by decide, c2_per_release_handling.2.1 cfgW envRun2 ⟨"v2", true, false⟩ (by decide)⟩,
    ⟨by decide, by decide,
      c2_per_release_handling.2.2.1 cfgW envNoAsset ⟨"v1", false, true⟩ dShaOnly
        (by decide) (by decide)⟩,
    ⟨by decide, by decide,
      c2_per_release_handling.2.2.2.1 cfgW envDlFail ⟨"v1", false, true⟩ dW
        ⟨"app-1.0.bin", 5⟩ (by decide) (by decide)⟩,
    ⟨by decide, by decide,
      c2_per_release_handling.2.2.2.2 cfgW envDlFail "v1" dW ⟨"app-1.0.bin", 5⟩ fsE
        (by decide) (by decide) (by decide) (by decide)⟩⟩

/-! Claim C3. -/

/-- Claim C3 (amended): within a run whose latest_stable slot was
filled, the symlink named lowercased app_name, -latest and the asset
suffix points to the exact filename of the stable asset just
downloaded, provided that symlink name differs from the asset filename;
the across-runs absence half of the invariant fails (see the
counterexample). -/
theorem c3_symlink_after_stable (cfg : Config) (env : Env) (fs0 : FS) (e : Entry)
    (h : (runMain cfg env fs0).1.latest_stable = some e)
    (hne : strLower cfg.app_name ++ "-latest" ++ pathSuffix e.asset_filename
      ≠ e.asset_filename) :
    (strLower cfg.app_name ++ "-latest" ++ pathSuffix e.asset_filename, e.asset_filename)
      ∈ (runMain cfg env fs0).2.links := by
  have h1 : (processStable cfg env (latestStableTag env.releases) fs0).1 = some e := by
    simpa [runMain] using h
  have hmem := processStable_some_link cfg env (latestStableTag env.releases) fs0 e h1 hne
  simp only [runMain, processAll_links, processPre_links]
  exact hmem

/-- The filesystem left by a successful first run. -/
def fsAfter1 : FS := (runMain cfgW envDlOk fsE).2

/-- Claim C3 counterexample: a later run that selects no stable asset
at all still ends with the old symlink in place, refuting the claimed
invariant that the symlink is absent when no stable asset exists. -/
theorem c3_cex : (runMain cfgW envRun2 fsAfter1).1.latest_stable = none
    ∧ (runMain cfgW envRun2 fsAfter1).1.all_releases = []
    ∧ ("app-latest.bin", "app-1.0.bin") ∈ (runMain cfgW envRun2 fsAfter1).2.links := by decide

/-- The latest_stable record of the successful run. -/
def eW : Entry := mkStableEntry dW ⟨"app-1.0.bin", 5⟩

/-- Witness for Claim C3: after the concrete successful stable sync,
the symlink app-latest.bin points at app-1.0.bin. -/
theorem c3_wit : ((runMain cfgW envDlOk fsE).1.latest_stable = some eW
      ∧ strLower cfgW.app_name ++ "-latest" ++ pathSuffix eW.asset_filename
        ≠ eW.asset_filename)
    ∧ (strLower cfgW.app_name ++ "-latest" ++ pathSuffix eW.asset_filename, eW.asset_filename)
      ∈ (runMain cfgW envDlOk fsE).2.links :=
  ⟨⟨by decide, by decide⟩, c3_symlink_after_stable cfgW envDlOk fsE eW (by decide) (by decide)⟩

/-! Claim C8. -/

/-- Claim C8 (amended): the prerelease candidate kept by the scan is
the first release in returned order that is flagged prerelease and not
flagged isLatest (for lists with nonempty tags); distinctness from the
stable tag is only checked afterwards, when the slot is filled.  When
the candidate is none, the latest_prerelease entry of the summary is
absent. -/
theorem c8_prerelease_selection :
    (∀ rs : List Release, (∀ x ∈ rs, x.tagName ≠ "") →
      latestPrereleaseTag rs
        = (rs.find? (fun x => !x.isLatest && x.isPrerelease)).map (fun x => x.tagName))
    ∧ (∀ (cfg : Config) (env : Env) (fs0 : FS), latestPrereleaseTag env.releases = none →
      (runMain cfg env fs0).1.latest_prerelease = none) := by
  constructor
  · intro rs h
    exact scanTags_snd_find rs h none
  · intro cfg env fs0 h
    simp [runMain, h, processPre]

/-- The list refuting Claim C8 as stated: the first prerelease shares
its tag with the stable release, so the code keeps it and then drops
the slot, while the claim asks for the next distinct prerelease. -/
def rsC8 : List Release := [⟨"v1", true, false⟩, ⟨"v2", true, false⟩, ⟨"v1", false, true⟩]

/-- Claim C8 counterexample: the code keeps v1 as prerelease candidate
although the first prerelease with a tag distinct from the stable tag
is v2. -/
theorem c8_cex : latestPrereleaseTag rsC8 = some "v1"
    ∧ specPrereleaseCandidate rsC8 = some "v2"
    ∧ latestPrereleaseTag rsC8 ≠ specPrereleaseCandidate rsC8 := by decide

/-- A list with a stable release first and a prerelease second. -/
def rsW8 : List Release := [⟨"s1", false, true⟩, ⟨"p1", true, false⟩]

/-- An environment whose fetched list holds no prerelease. -/
def envNoPre : Env := ⟨[⟨"v1", false, true⟩], fun _ => none, fun _ _ => false⟩

/-- Witness for Claim C8 at concrete lists: the scan equals the
first-non-latest-prerelease rule, and a list with no prerelease leaves
the latest_prerelease entry absent. -/
theorem c8_wit : (∀ x ∈ rsW8, x.tagName ≠ "")
    ∧ latestPrereleaseTag rsW8
      = (rsW8.find? (fun x => !x.isLatest && x.isPrerelease)).map (fun x => x.tagName)
    ∧ latestPrereleaseTag envNoPre.releases = none
    ∧ (runMain cfgW envNoPre fsE).1.latest_prerelease = none :=
  ⟨by decide, c8_prerelease_selection.1 rsW8 (by decide), by decide,
    c8_prerelease_selection.2 cfgW envNoPre fsE (by decide)⟩
